import Mathlib

/-!
# Verification of the n0tebot message-batching and note-synthesis pipeline

A shallow embedding of the per-user batch collector, the batch processor,
the response sanitizer / title-content split, and the usage-counter update
from the bot's source (`app/handlers/notes.py`, `app/handlers/ai.py`,
`app/db_notes.py`, `app/usage.py`, `app/state.py`), together with theorems
settling the specification's claims about them.

The external world (chat transport, download/transcription, text generation,
database) is modelled by explicit oracle parameters; all Python exception
paths are modelled with `Except`.
-/

namespace N0tebot

/-! ## Python string primitives

Python `str.strip()`, one-shot `str.split(sep, 1)`, and truthiness of the
values the handlers test (`Optional[str]`, `Optional[int]`, `float`).
We restrict the whitespace set to the ASCII whitespace characters
(space, tab, LF, CR, VT, FF); the handlers never depend on the wider
Unicode set.
-/

/-- Python whitespace predicate (ASCII range of `str.isspace`). -/
def pyIsSpace (c : Char) : Bool :=
  c = ' ' || c = '\t' || c = '\n' || c = '\r' || c = Char.ofNat 11 || c = Char.ofNat 12

/-- Python `str.strip()` on the character list. -/
def pyStripL (l : List Char) : List Char :=
  ((l.dropWhile pyIsSpace).reverse.dropWhile pyIsSpace).reverse

/-- Python `str.strip()`. -/
def pyStrip (s : String) : String := ⟨pyStripL s.data⟩

/-- Python truthiness of an `Optional[str]`: `None` and `""` are falsy. -/
def truthyS : Option String → Bool
  | some s => s ≠ ""
  | none => false

/-- Python truthiness of a float/number: zero is falsy. -/
def truthyQ (q : Rat) : Bool := q ≠ 0

/-- Python truthiness of an `Optional[int]`: `None` and `0` are falsy. -/
def truthyN : Option Nat → Bool
  | some n => n ≠ 0
  | none => false

/-- Split a character list at the first occurrence of `c`
(Python `s.split(c, 1)`): returns the part before the first `c` and,
when `c` occurs, the remainder after it. -/
def splitOnce (c : Char) : List Char → List Char × Option (List Char)
  | [] => ([], none)
  | d :: rest =>
    if d = c then ([], some rest)
    else
      let p := splitOnce c rest
      (d :: p.1, p.2)

/-! ## Response sanitizer (`_strip_trailing_json_block`, app/handlers/ai.py)

`re.sub(r"(?s)<fence>.*?<fence>", "\n", text)` followed by removing leftover
fence markers and a final `strip()`, where a fence is a run of three
backticks.  We model the regex scan directly: repeatedly locate an opening
and a closing fence, replace the span by a newline, and continue after it.
-/

/-- The backtick character (code point 96). -/
def btick : Char := Char.ofNat 96

/-- Locate the first triple-backtick fence: on success returns the characters
before the fence and the characters after it. -/
def splitFence : List Char → Option (List Char × List Char)
  | [] => none
  | c :: rest =>
    if c = btick ∧ rest.take 2 = [btick, btick] then some ([], rest.drop 2)
    else (splitFence rest).map (fun p => (c :: p.1, p.2))

theorem splitFence_length :
    ∀ (l a b : List Char), splitFence l = some (a, b) →
      a.length + 3 + b.length = l.length := by
  intro l
  induction l with
  | nil => intro a b h; simp [splitFence] at h
  | cons c rest ih =>
    intro a b h
    simp only [splitFence] at h
    split at h
    · rename_i hc
      have h2 : min 2 rest.length = 2 := by
        rw [← List.length_take, hc.2]; rfl
      injection h with h'
      obtain ⟨rfl, rfl⟩ := Prod.mk.injEq .. ▸ h'
      simp only [List.length_nil, List.length_cons, List.length_drop]
      omega
    · cases hm : splitFence rest with
      | none => rw [hm] at h; simp at h
      | some p =>
        obtain ⟨a', b'⟩ := p
        rw [hm] at h
        simp only [Option.map] at h
        injection h with h'
        obtain ⟨rfl, rfl⟩ := Prod.mk.injEq .. ▸ h'
        have := ih a' b' hm
        simp only [List.length_cons]
        omega

/-- One pass of `re.sub((?s)<fence>.*?<fence>, "\n", text)`: each matched
fenced block is replaced by a single newline; an opening fence without a
closing one matches nothing and the scan stops.  Structural recursion on a
fuel counter (each step consumes at least six characters of the input, so
`l.length` fuel never runs out — see `splitFence_length`); written this way
rather than by well-founded recursion so that the definition reduces inside
the kernel. -/
def removeFencesFuel : Nat → List Char → List Char
  | 0, l => l
  | fuel + 1, l =>
    match splitFence l with
    | none => l
    | some (bef, rest1) =>
      match splitFence rest1 with
      | none => l
      | some (_, rest2) => bef ++ '\n' :: removeFencesFuel fuel rest2

def removeFences (l : List Char) : List Char := removeFencesFuel l.length l

/-- `text.replace(fence, "")`: delete every remaining fence marker
(same fuel scheme; each step consumes at least three characters). -/
def stripFenceMarkersFuel : Nat → List Char → List Char
  | 0, l => l
  | fuel + 1, l =>
    match splitFence l with
    | none => l
    | some (a, b) => a ++ stripFenceMarkersFuel fuel b

def stripFenceMarkers (l : List Char) : List Char :=
  stripFenceMarkersFuel l.length l

/-- `_strip_trailing_json_block` (app/handlers/ai.py): sanitize AI text by
removing fenced code blocks, then leftover fence markers, then stripping. -/
def _strip_trailing_json_block (text : String) : String :=
  if text = "" then text
  else pyStrip ⟨stripFenceMarkers (removeFences text.data)⟩

/-! ## Title/content split (app/handlers/notes.py lines 322-327) -/

/-- The title/content derivation applied to the sanitized reply:
`lines = full_text.strip().split("\n", 1)`, the first line stripped is the
candidate title, the remainder stripped the candidate content; an empty
candidate content takes the title's place and clears the title. -/
def splitTitleContent (full_text : String) : Option String × String :=
  let s := pyStripL full_text.data
  let p := splitOnce '\n' s
  let title := pyStripL p.1
  let content :=
    match p.2 with
    | some rest => pyStripL rest
    | none => []
  if content = [] then (none, ⟨title⟩)
  else (some ⟨title⟩, ⟨content⟩)

/-! ## Facts about `strip` and the one-shot split -/

theorem dropWhile_head?_not (p : Char → Bool) :
    ∀ (l : List Char) (c : Char), (l.dropWhile p).head? = some c → p c = false := by
  intro l
  induction l with
  | nil => intro c h; simp [List.dropWhile] at h
  | cons d rest ih =>
    intro c h
    by_cases hd : p d
    · rw [List.dropWhile_cons, if_pos hd] at h
      exact ih c h
    · rw [List.dropWhile_cons, if_neg hd] at h
      simp only [List.head?_cons, Option.some.injEq] at h
      rw [← h]
      exact Bool.eq_false_iff.mpr hd

theorem dropWhile_getLast? (p : Char → Bool) :
    ∀ (l : List Char), l.dropWhile p ≠ [] →
      (l.dropWhile p).getLast? = l.getLast? := by
  intro l
  induction l with
  | nil => intro h; simp [List.dropWhile] at h
  | cons d rest ih =>
    intro h
    by_cases hd : p d
    · rw [List.dropWhile_cons, if_pos hd] at h ⊢
      have hrest : rest ≠ [] := by
        intro h0; rw [h0] at h; simp [List.dropWhile] at h
      rw [ih h]
      cases rest with
      | nil => exact absurd rfl hrest
      | cons e rest' => rw [List.getLast?_cons_cons]
    · rw [List.dropWhile_cons, if_neg hd]

theorem dropWhile_eq_self_of_head (p : Char → Bool) (l : List Char)
    (h : ∀ c, l.head? = some c → p c = false) : l.dropWhile p = l := by
  cases l with
  | nil => rfl
  | cons d rest =>
    rw [List.dropWhile_cons, if_neg]
    intro hd
    exact absurd (h d rfl) (by simp [hd])

theorem pyStripL_getLast?_not_space (x : List Char) (c : Char)
    (h : (pyStripL x).getLast? = some c) : pyIsSpace c = false := by
  unfold pyStripL at h
  rw [List.getLast?_reverse] at h
  exact dropWhile_head?_not _ _ _ h

theorem pyStripL_head?_not_space (x : List Char) (c : Char)
    (h : (pyStripL x).head? = some c) : pyIsSpace c = false := by
  unfold pyStripL at h
  rw [List.head?_reverse] at h
  have hne : (x.dropWhile pyIsSpace).reverse.dropWhile pyIsSpace ≠ [] := by
    intro h0; rw [h0] at h; simp at h
  rw [dropWhile_getLast? _ _ hne, List.getLast?_reverse] at h
  exact dropWhile_head?_not _ _ _ h

theorem pyStripL_eq_self (l : List Char)
    (hh : ∀ c, l.head? = some c → pyIsSpace c = false)
    (hl : ∀ c, l.getLast? = some c → pyIsSpace c = false) : pyStripL l = l := by
  unfold pyStripL
  rw [dropWhile_eq_self_of_head _ _ hh]
  rw [dropWhile_eq_self_of_head _ _
      (fun c hc => hl c (by rwa [List.head?_reverse] at hc))]
  exact List.reverse_reverse l

theorem pyStripL_idem (x : List Char) : pyStripL (pyStripL x) = pyStripL x :=
  pyStripL_eq_self _ (pyStripL_head?_not_space x) (pyStripL_getLast?_not_space x)

theorem mem_of_getLast?_eq (l : List Char) (c : Char)
    (h : l.getLast? = some c) : c ∈ l := by
  obtain ⟨hne, hc⟩ := List.mem_getLast?_eq_getLast (Option.mem_def.mpr h)
  rw [hc]
  exact List.getLast_mem hne

theorem pyStripL_ne_nil_of_last (l : List Char) (c : Char)
    (h : l.getLast? = some c) (hc : pyIsSpace c = false) : pyStripL l ≠ [] := by
  intro h0
  unfold pyStripL at h0
  rw [List.reverse_eq_nil_iff] at h0
  have hall := List.dropWhile_eq_nil_iff.mp h0
  have hne : l.dropWhile pyIsSpace ≠ [] := by
    intro hnil
    have hall2 := List.dropWhile_eq_nil_iff.mp hnil
    have hmem : c ∈ l := mem_of_getLast?_eq l c h
    exact absurd (hall2 c hmem) (by simp [hc])
  have hlast : (l.dropWhile pyIsSpace).getLast? = some c := by
    rw [dropWhile_getLast? _ _ hne]; exact h
  have hmem : c ∈ (l.dropWhile pyIsSpace).reverse := by
    rw [List.mem_reverse]
    exact mem_of_getLast?_eq _ c hlast
  exact absurd (hall c hmem) (by simp [hc])

theorem splitOnce_none_fst (c : Char) :
    ∀ l, (splitOnce c l).2 = none → (splitOnce c l).1 = l := by
  intro l
  induction l with
  | nil => intro _; rfl
  | cons d rest ih =>
    intro h
    by_cases hd : d = c
    · simp [splitOnce, hd] at h
    · simp only [splitOnce, if_neg hd] at h ⊢
      rw [ih h]

theorem splitOnce_some_append (c : Char) :
    ∀ l a r, splitOnce c l = (a, some r) → l = a ++ c :: r := by
  intro l
  induction l with
  | nil => intro a r h; simp [splitOnce] at h
  | cons d rest ih =>
    intro a r h
    by_cases hd : d = c
    · simp only [splitOnce, if_pos hd] at h
      injection h with h1 h2
      injection h2 with h2
      rw [← h1, ← h2, hd]
      rfl
    · cases hr : splitOnce c rest with
      | mk a' o =>
        simp only [splitOnce, if_neg hd, hr] at h
        injection h with h1 h2
        have hrest := ih a' r (by rw [hr, h2])
        rw [← h1, List.cons_append, ← hrest]

theorem mk_data_ne (l : List Char) (h : l ≠ []) : (⟨l⟩ : String) ≠ "" :=
  fun he => h (by have := congrArg String.data he; simpa using this)

/-- C6: For every non-empty sanitized reply, the note's title is the first
line trimmed and the content is the remainder after the first newline,
trimmed; if that remainder is empty, the title is cleared and the content
becomes the whole trimmed text; consequently the derived content — the
value handed to note persistence — is always non-empty. -/
theorem title_content_split_rule (full_text : String)
    (h : pyStrip full_text ≠ "") :
    (splitTitleContent full_text).2 ≠ "" ∧
    (∀ a r, splitOnce '\n' (pyStripL full_text.data) = (a, some r) →
        (splitTitleContent full_text).1 = some ⟨pyStripL a⟩ ∧
        (splitTitleContent full_text).2 = ⟨pyStripL r⟩) ∧
    ((splitOnce '\n' (pyStripL full_text.data)).2 = none →
        (splitTitleContent full_text).1 = none ∧
        (splitTitleContent full_text).2 = ⟨pyStripL full_text.data⟩) := by
  have ht : pyStripL full_text.data ≠ [] := by
    intro h0
    apply h
    unfold pyStrip
    rw [h0]
  cases hp : splitOnce '\n' (pyStripL full_text.data) with
  | mk a o =>
    cases o with
    | none =>
      have ha : a = pyStripL full_text.data := by
        have h2 : (splitOnce '\n' (pyStripL full_text.data)).2 = none := by
          rw [hp]
        have h1 := splitOnce_none_fst '\n' (pyStripL full_text.data) h2
        rw [hp] at h1
        exact h1
      have hres : splitTitleContent full_text =
          (none, ⟨pyStripL full_text.data⟩) := by
        simp [splitTitleContent, hp, ha, pyStripL_idem]
      refine ⟨?_, ?_, ?_⟩
      · rw [hres]; exact mk_data_ne _ ht
      · intro a' r' h'; exact absurd h' (by simp)
      · intro _; rw [hres]; exact ⟨rfl, rfl⟩
    | some r =>
      have hsplit := splitOnce_some_append '\n' (pyStripL full_text.data) a r hp
      obtain ⟨c, hc⟩ : ∃ c, (pyStripL full_text.data).getLast? = some c := by
        cases hl : (pyStripL full_text.data).getLast? with
        | none => exact absurd (List.getLast?_eq_none_iff.mp hl) ht
        | some c => exact ⟨c, rfl⟩
      have hcs := pyStripL_getLast?_not_space full_text.data c hc
      have hr : r ≠ [] := by
        intro h0
        rw [h0] at hsplit
        have hnl : (pyStripL full_text.data).getLast? = some '\n' := by
          rw [hsplit]
          exact List.getLast?_concat a
        have hcn : c = '\n' := by
          have := hc.symm.trans hnl
          injection this
        rw [hcn] at hcs
        exact absurd hcs (by decide)
      have hlast : r.getLast? = some c := by
        rw [hsplit] at hc
        rw [List.getLast?_append_of_ne_nil a (by simp)] at hc
        cases r with
        | nil => exact absurd rfl hr
        | cons e r' => rw [List.getLast?_cons_cons] at hc; exact hc
      have hrne : pyStripL r ≠ [] := pyStripL_ne_nil_of_last r c hlast hcs
      have hres : splitTitleContent full_text = (some ⟨pyStripL a⟩, ⟨pyStripL r⟩) := by
        simp only [splitTitleContent, hp]
        rw [if_neg hrne]
      refine ⟨?_, ?_, ?_⟩
      · rw [hres]; exact mk_data_ne _ hrne
      · intro a' r' h'
        injection h' with h1 h2
        injection h2 with h2
        rw [hres, ← h1, ← h2]
        exact ⟨rfl, rfl⟩
      · intro h'; exact absurd h' (by simp)

theorem title_content_split_rule_witness :
    pyStrip "Hello\nWorld" ≠ "" ∧
    ((splitTitleContent "Hello\nWorld").2 ≠ "") :=
  ⟨by decide, (title_content_split_rule "Hello\nWorld" (by decide)).1⟩

/-! ## Telegram message data model

Only the fields the batching handlers read (app/handlers/notes.py and
`_forward_meta` in app/handlers/ai.py).  Durations are modelled as rationals
(Telegram delivers integral seconds; `usage.py` floors the float it is
given, see `log_usage` below).
-/

structure TgUser where
  id : Int
  username : Option String
  first_name : Option String
  last_name : Option String
deriving DecidableEq

structure TgChat where
  id : Int
  title : Option String
  username : Option String
deriving DecidableEq

/-- `voice` / `video_note` / `video` payload: the declared duration. -/
structure MediaInfo where
  duration : Option Rat
deriving DecidableEq

structure AudioInfo where
  duration : Option Rat
  file_name : Option String
deriving DecidableEq

structure DocInfo where
  mime_type : Option String
  file_name : Option String
deriving DecidableEq

structure Msg where
  text : Option String
  caption : Option String
  voice : Option MediaInfo
  video_note : Option MediaInfo
  video : Option MediaInfo
  audio : Option AudioInfo
  document : Option DocInfo
  photo : Bool
  forward_from : Option TgUser
  forward_sender_name : Option String
  forward_from_chat : Option TgChat
deriving DecidableEq

/-- A message with no payload at all (base value for building test inputs). -/
def emptyMsg : Msg :=
  { text := none, caption := none, voice := none, video_note := none,
    video := none, audio := none, document := none, photo := false,
    forward_from := none, forward_sender_name := none,
    forward_from_chat := none }

/-- One buffered inbound message: the dict
`{"type": message_type, "message": message}` appended to
`state.batch_items` (app/handlers/notes.py line 102). -/
structure BatchItem where
  type : String
  message : Msg
deriving DecidableEq

/-! ## Forward-context formatter (`_forward_meta`, app/handlers/ai.py) -/

/-- Python `a or b` on an optional string against a fallback. -/
def orS (a : Option String) (b : String) : String :=
  match a with
  | some s => if s = "" then b else s
  | none => b

/-- `_forward_meta` (app/handlers/ai.py lines 20-52): human-readable
provenance line for forwarded messages. -/
def _forward_meta (message : Msg) : String :=
  match message.forward_from with
  | some u =>
    let parts1 : List String :=
      if truthyS u.username then ["@" ++ u.username.getD ""] else []
    let name := String.intercalate " "
      (([u.first_name, u.last_name].filterMap id).filter (fun s => s ≠ ""))
    let parts2 := if name ≠ "" then parts1 ++ [name] else parts1
    let parts3 := parts2 ++ ["id=" ++ toString u.id]
    if truthyS u.username then
      "[Forwarded from [" ++ String.intercalate ", " parts3 ++
        "](https://t.me/" ++ u.username.getD "" ++ ")]\n\n"
    else
      "[Forwarded from " ++ String.intercalate ", " parts3 ++ "]\n\n"
  | none =>
    if truthyS message.forward_sender_name then
      "[Forwarded from " ++ message.forward_sender_name.getD "" ++ "]\n\n"
    else
      match message.forward_from_chat with
      | some ch =>
        let chat_info := orS ch.title (orS ch.username (toString ch.id))
        if truthyS ch.username then
          "[Forwarded from chat: [" ++ chat_info ++ "](https://t.me/" ++
            ch.username.getD "" ++ ")]\n\n"
        else
          "[Forwarded from chat: " ++ chat_info ++ "]\n\n"
      | none => ""

/-! ## Per-item extraction (`_process_one`, app/handlers/notes.py 163-258)

All fallible I/O a media branch performs (`bot.get_file`, `bot.download`,
`transcribe_audio`) is collapsed into one oracle of type `ExtIO`:
`Except.error ()` models an exception raised by any of these calls, and
`Except.ok t` a completed download+transcription returning transcript `t`
(empty on transcription failure, as `transcribe_audio` returns `""` then).
The semaphore only bounds how many of these oracles are in flight at once;
it does not affect any item's result value.
-/

abbrev ExtIO := Except Unit String

/-- The `try` body of `_process_one`: the kind dispatch over the message
payload.  Returns the `(text_out, added_seconds)` contribution, or an error
when the performed I/O raised. -/
def _process_one_try (kind : String) (msg : Msg) (pfx : String) (io : ExtIO) :
    Except Unit (String × Rat) :=
  if kind = "text" ∧ truthyS msg.text then
    .ok (pfx ++ msg.text.getD "", 0)
  else if kind = "voice" ∧ msg.voice.isSome then
    io.bind fun t =>
      .ok (if t ≠ "" then pfx ++ t else "",
           (msg.voice.map (fun v => v.duration.getD 0)).getD 0)
  else if kind = "video_note" ∧ msg.video_note.isSome then
    io.bind fun t =>
      .ok (if t ≠ "" then pfx ++ t else "",
           (msg.video_note.map (fun v => v.duration.getD 0)).getD 0)
  else if kind = "video" ∧ msg.video.isSome then
    io.bind fun t =>
      let cap := pyStrip (msg.caption.getD "")
      .ok (if t ≠ "" then
             pfx ++ (if cap ≠ "" then cap ++ "\n\n" else "") ++ t
           else if cap ≠ "" then pfx ++ cap else "",
           (msg.video.map (fun v => v.duration.getD 0)).getD 0)
  else if kind = "audio" ∧ msg.audio.isSome then
    io.bind fun t =>
      let cap := pyStrip (msg.caption.getD "")
      .ok (if t ≠ "" then
             pfx ++ (if cap ≠ "" then cap ++ "\n\n" else "") ++ t
           else if cap ≠ "" then pfx ++ cap else "",
           (msg.audio.map (fun a => a.duration.getD 0)).getD 0)
  else if kind = "document" ∧ msg.document.isSome then
    let doc := msg.document.getD { mime_type := none, file_name := none }
    let mime := (doc.mime_type.getD "").map Char.toLower
    let nm := (doc.file_name.getD "").map Char.toLower
    let is_media :=
      mime.startsWith "audio/" || mime.startsWith "video/" ||
      [".mp3", ".m4a", ".wav", ".ogg", ".flac", ".mp4", ".mkv", ".mov",
        ".webm"].any (fun ext => nm.endsWith ext)
    let cap := pyStrip (msg.caption.getD "")
    if is_media then
      io.bind fun t =>
        .ok (if t ≠ "" then
               pfx ++ (if cap ≠ "" then cap ++ "\n\n" else "") ++ t
             else if cap ≠ "" then pfx ++ cap else "",
             0)
    else
      .ok (if cap ≠ "" then pfx ++ cap else "", 0)
  else if kind = "photo" ∧ msg.photo then
    let cap := pyStrip (msg.caption.getD "")
    .ok (if cap ≠ "" then pfx ++ cap else "", 0)
  else
    .ok ("", 0)

/-- `_process_one` without its index argument: the `try` body guarded by the
`except` clause that converts any per-item exception into the empty
contribution `("", 0.0)`. -/
def _process_one (it : BatchItem) (io : ExtIO) : String × Rat :=
  match _process_one_try it.type it.message (_forward_meta it.message) io with
  | .ok r => r
  | .error _ => ("", 0)

/-- The per-index results of `asyncio.gather(*[_process_one(i, it) ...])`:
`gather` returns results in submission order, one per item. -/
def batchResults (items : List BatchItem) (ios : List ExtIO) :
    List (String × Rat) :=
  List.zipWith _process_one items ios

/-! ## Scheduler model for `asyncio.gather`

`gather` allocates one slot per submitted coroutine; a completing task
writes its result into its own slot; once all slots are filled the slot
list is returned in submission order.  `order` below is the completion
order the scheduler happened to produce.
-/

def gatherSlots (n : Nat) (res : Nat → α) (order : List Nat) :
    List (Option α) :=
  order.foldl (fun acc i => acc.set i (some (res i))) (List.replicate n none)

/-- One turn of the in-order collection loop over the gathered results
(app/handlers/notes.py lines 263-267): keep a non-empty `text_out`,
accumulate a truthy `added_seconds`. -/
def collectStep (acc : List String × Rat) (r : String × Rat) :
    List String × Rat :=
  (if r.1 ≠ "" then acc.1 ++ [r.1] else acc.1,
   if r.2 ≠ 0 then acc.2 + r.2 else acc.2)

/-- The collection loop: `(parts, total_voice_seconds)`. -/
def collectResults (results : List (String × Rat)) : List String × Rat :=
  results.foldl collectStep ([], 0)

/-- The fixed separator joining the surviving parts (line 273). -/
def SEPARATOR : String := "\n\n---\n\n"

/-- `("\n\n---\n\n").join(parts)`. -/
def promptOf (parts : List String) : String := String.intercalate SEPARATOR parts

/-! ## Ordering of the gathered results -/

theorem gather_foldl_getElem? (res : Nat → α) :
    ∀ (order : List Nat) (init : List (Option α)) (j : Nat),
      (order.foldl (fun acc i => acc.set i (some (res i))) init)[j]? =
        if j ∈ order ∧ j < init.length then some (some (res j))
        else init[j]? := by
  intro order
  induction order with
  | nil => intro init j; simp
  | cons i rest ih =>
    intro init j
    rw [List.foldl_cons, ih, List.length_set, List.getElem?_set]
    by_cases hjl : j < init.length
    · by_cases hjr : j ∈ rest
      · simp [hjr, hjl]
      · by_cases hij : i = j
        · simp [hjr, hij, hjl, List.mem_cons]
        · simp [hjr, hij, hjl, List.mem_cons, Ne.symm hij]
    · have h1 : init[j]? = none := List.getElem?_eq_none (by omega)
      by_cases hij : i = j
      · simp [hjl, hij, h1]
      · simp [hjl, hij, h1]

theorem gatherSlots_complete (res : Nat → α) (n : Nat) (order : List Nat)
    (hcov : ∀ j ∈ List.range n, j ∈ order) :
    gatherSlots n res order = (List.range n).map (fun i => some (res i)) := by
  apply List.ext_getElem?
  intro j
  unfold gatherSlots
  rw [gather_foldl_getElem?, List.length_replicate]
  by_cases hj : j < n
  · rw [if_pos ⟨hcov j (List.mem_range.mpr hj), hj⟩, List.getElem?_map,
      List.getElem?_range hj]
    rfl
  · rw [if_neg (fun hc => hj hc.2),
      List.getElem?_eq_none (le_of_not_lt (by simpa using hj)),
      List.getElem?_eq_none (by simpa using hj)]

theorem range_map_getD (l : List α) (d : α) :
    (List.range l.length).map (fun i => some (l.getD i d)) = l.map some := by
  apply List.ext_getElem?
  intro j
  rw [List.getElem?_map, List.getElem?_map]
  by_cases hj : j < l.length
  · rw [List.getElem?_range hj, List.getElem?_eq_getElem hj]
    simp [List.getD_eq_getElem?_getD, List.getElem?_eq_getElem hj]
  · rw [List.getElem?_eq_none (le_of_not_lt (by simpa using hj)),
      List.getElem?_eq_none (le_of_not_lt hj)]
    rfl

theorem collect_fst_aux :
    ∀ (results : List (String × Rat)) (acc : List String) (q : Rat),
      (results.foldl collectStep (acc, q)).1 =
        acc ++ (results.map Prod.fst).filter (fun t => t ≠ "") := by
  intro results
  induction results with
  | nil => intro acc q; simp
  | cons r rest ih =>
    intro acc q
    rw [List.foldl_cons]
    by_cases h1 : r.1 = ""
    · have hstep : collectStep (acc, q) r =
          (acc, if r.2 ≠ 0 then q + r.2 else q) := by
        simp [collectStep, h1]
      rw [hstep, ih]
      simp [List.filter_cons, h1]
    · have hstep : collectStep (acc, q) r =
          (acc ++ [r.1], if r.2 ≠ 0 then q + r.2 else q) := by
        simp [collectStep, h1]
      rw [hstep, ih]
      simp [List.filter_cons, h1]

theorem collect_fst (results : List (String × Rat)) :
    (collectResults results).1 =
      (results.map Prod.fst).filter (fun t => t ≠ "") := by
  unfold collectResults
  rw [collect_fst_aux]
  rfl

theorem collect_snd_aux :
    ∀ (results : List (String × Rat)) (acc : List String) (q : Rat),
      (results.foldl collectStep (acc, q)).2 =
        q + (results.map Prod.snd).sum := by
  intro results
  induction results with
  | nil => intro acc q; simp
  | cons r rest ih =>
    intro acc q
    rw [List.foldl_cons]
    by_cases h2 : r.2 = 0
    · have hstep : collectStep (acc, q) r =
          (if r.1 ≠ "" then acc ++ [r.1] else acc, q) := by
        simp [collectStep, h2]
      rw [hstep, ih]
      simp [h2]
    · have hstep : collectStep (acc, q) r =
          (if r.1 ≠ "" then acc ++ [r.1] else acc, q + r.2) := by
        simp [collectStep, h2]
      rw [hstep, ih]
      simp [add_assoc]

/-- `total_voice_seconds` is the plain sum of the per-item `added_seconds`. -/
theorem collect_snd (results : List (String × Rat)) :
    (collectResults results).2 = (results.map Prod.snd).sum := by
  unfold collectResults
  rw [collect_snd_aux]
  simp

/-- C1: For every batch snapshot, the assembled prompt consists of exactly
the per-item extracted texts that are non-empty, in original arrival order,
joined with the fixed separator `"\n\n---\n\n"`; reading the gather slots in
submission order yields the per-index extraction results for every
completion order the scheduler may produce, so completion order never
changes the prompt. -/
theorem batch_prompt_order_invariant
    (items : List BatchItem) (ios : List ExtIO) (order : List Nat)
    (hcov : ∀ j ∈ List.range (batchResults items ios).length, j ∈ order) :
    gatherSlots (batchResults items ios).length
        (fun i => (batchResults items ios).getD i ("", 0)) order
      = (batchResults items ios).map some ∧
    promptOf (collectResults (batchResults items ios)).1
      = String.intercalate "\n\n---\n\n"
          (((batchResults items ios).map Prod.fst).filter (fun t => t ≠ "")) := by
  constructor
  · rw [gatherSlots_complete _ _ _ hcov, range_map_getD]
  · rw [promptOf, collect_fst]
    rfl

def wItems : List BatchItem :=
  [ { type := "text", message := { emptyMsg with text := some "alpha" } },
    { type := "voice",
      message := { emptyMsg with voice := some { duration := some 3 } } },
    { type := "photo",
      message := { emptyMsg with photo := true, caption := some "pic" } } ]

def wIos : List ExtIO := [.ok "", .ok "bravo", .error ()]

theorem batch_prompt_order_invariant_witness :
    (∀ j ∈ List.range (batchResults wItems wIos).length, j ∈ [2, 0, 1]) ∧
    (gatherSlots (batchResults wItems wIos).length
        (fun i => (batchResults wItems wIos).getD i ("", 0)) [2, 0, 1]
      = (batchResults wItems wIos).map some ∧
     promptOf (collectResults (batchResults wItems wIos)).1
      = String.intercalate "\n\n---\n\n"
          (((batchResults wItems wIos).map Prod.fst).filter (fun t => t ≠ ""))) :=
  ⟨by decide, batch_prompt_order_invariant wItems wIos [2, 0, 1] (by decide)⟩

/-- C7: Any exception raised during one item's extraction is caught and
converts only that item's contribution to empty text and 0 seconds (first
conjunct), and each item's gathered result depends only on that item and
its own I/O — so one item's failure never perturbs the others or aborts
the batch (second conjunct; `_process_one` is moreover a total function,
so no per-item exception escapes to `gather`). -/
theorem per_item_exception_isolation :
    (∀ (it : BatchItem) (io : ExtIO) (e : Unit),
        _process_one_try it.type it.message (_forward_meta it.message) io
          = .error e →
        _process_one it io = ("", 0)) ∧
    (∀ (items : List BatchItem) (ios ios' : List ExtIO) (j : Nat),
        ios[j]? = ios'[j]? →
        (batchResults items ios)[j]? = (batchResults items ios')[j]?) := by
  constructor
  · intro it io e herr
    unfold _process_one
    rw [herr]
  · intro items ios ios' j h
    unfold batchResults
    rw [List.getElem?_zipWith, List.getElem?_zipWith, h]

def wIos' : List ExtIO := [.error (), .ok "bravo", .ok "x"]

theorem per_item_exception_isolation_witness :
    _process_one
        { type := "voice",
          message := { emptyMsg with voice := some { duration := some 7 } } }
        (.error ()) = ("", 0) ∧
    (batchResults wItems wIos)[1]? = (batchResults wItems wIos')[1]? :=
  ⟨per_item_exception_isolation.1 _ (.error ()) () (by rfl),
   per_item_exception_isolation.2 wItems wIos wIos' 1 (by rfl)⟩

/-! ## Localized texts (app/texts.py)

The handlers read dictionaries keyed by `"en" | "uk" | "ru"` through
`d.get(lang, d["en"])`; any other key falls back to English.
-/

def PROCESSING (lang : String) : String :=
  if lang = "uk" then "⏳ Обробляю..."
  else if lang = "ru" then "⏳ Обрабатываю..."
  else "⏳ Processing..."

/-- Modelled from the spec: the second transient "processing" indicator
message text.  `PROCESSING_EMOJI` is imported by app/handlers/notes.py from
app/texts.py but its definition is absent from the provided sources; the
spec only requires a pair of transient indicator messages, so its exact
value decides nothing below. -/
def PROCESSING_EMOJI : String := "⌛"

def PROCESSED_DONE (lang : String) : String :=
  if lang = "uk" then "Ваш запис оброблено безпечно.\nВідкрийте n0te."
  else if lang = "ru" then "Ваша запись обработана безопасно.\nОткройте n0te."
  else "Your note was processed safely.\nOpen n0te."

def NEXT_PROMPT (lang : String) : String :=
  if lang = "uk" then "Надішліть наступний n0te або перешліть у чат."
  else if lang = "ru" then "Отправьте следующий n0te или перешлите в чат."
  else "Send the next n0te or forward to the chat."

/-- The generic error text dictionary local to `_process_batch_core`
(app/handlers/notes.py lines 368-372). -/
def BATCH_ERROR_TEXT (lang : String) : String :=
  if lang = "uk" then "Не вдалося обробити ваше повідомлення. Спробуйте ще раз."
  else if lang = "ru" then "Не удалось обработать ваше сообщение. Попробуйте ещё раз."
  else "Failed to process your message. Please try again."

/-! ## Per-user collector state (app/state.py `UserState`, batching fields)

`batch_task` holds the identity of the currently scheduled debounce task;
replacing it models `task.cancel()` + `asyncio.create_task(...)`: a task
whose id is no longer current was cancelled during its sleep and never
reaches its body.
-/

structure CollectorState where
  last_content_message_id : Option Nat
  last_prompt_message_id : Option Nat
  processing_msg_id : Option Nat
  processing_emoji_msg_id : Option Nat
  batch_items : List BatchItem
  batch_task : Option Nat
deriving DecidableEq

/-- A fresh `UserState` (all fields unset). -/
def quiescent : CollectorState :=
  { last_content_message_id := none, last_prompt_message_id := none,
    processing_msg_id := none, processing_emoji_msg_id := none,
    batch_items := [], batch_task := none }

/-- Observable side effects of the collector on the chat transport and the
processing pipeline. -/
inductive Effect where
  | deleteMsg (mid : Nat)
  | sendMsg (mid : Nat) (text : String)
  | invoke (snapshot : List BatchItem)
deriving DecidableEq

/-- `_enqueue_for_batch` (app/handlers/notes.py lines 67-113).  `pm`, `pe`
are the message ids the transport assigns to the two indicator messages,
`tid` the identity of the freshly created debounce task. -/
def _enqueue_for_batch (st : CollectorState) (lang : String)
    (item : BatchItem) (pm pe tid : Nat) : CollectorState × List Effect :=
  let first := st.processing_msg_id.isNone && st.processing_emoji_msg_id.isNone
  let effs :=
    (if first && truthyN st.last_content_message_id then
      [Effect.deleteMsg (st.last_content_message_id.getD 0)] else []) ++
    (if first && truthyN st.last_prompt_message_id then
      [Effect.deleteMsg (st.last_prompt_message_id.getD 0)] else []) ++
    (if first then
      [Effect.sendMsg pm (PROCESSING lang), Effect.sendMsg pe PROCESSING_EMOJI]
    else [])
  let st1 :=
    { st with
      last_content_message_id :=
        if first && truthyN st.last_content_message_id then none
        else st.last_content_message_id,
      last_prompt_message_id :=
        if first && truthyN st.last_prompt_message_id then none
        else st.last_prompt_message_id,
      processing_msg_id := if first then some pm else st.processing_msg_id,
      processing_emoji_msg_id :=
        if first then some pe else st.processing_emoji_msg_id }
  ({ st1 with batch_items := st1.batch_items ++ [item],
              batch_task := some tid },
   effs)

/-- The body of `_process_batch_after_delay` after its sleep
(app/handlers/notes.py lines 122-142): snapshot and clear the buffer and
the task handle; an empty snapshot only cleans up the transient indicator
messages; otherwise the Batch Processor is invoked with the snapshot.
(The processor run itself, `_process_batch_core`, is modelled separately;
its indicator-message cleanup happens inside that run.) -/
def _process_batch_after_delay (st : CollectorState) :
    CollectorState × List Effect :=
  let items := st.batch_items
  let st1 := { st with batch_items := ([] : List BatchItem),
                       batch_task := (none : Option Nat) }
  if items = [] then
    let effs :=
      (if truthyN st1.processing_msg_id then
        [Effect.deleteMsg (st1.processing_msg_id.getD 0)] else []) ++
      (if truthyN st1.processing_emoji_msg_id then
        [Effect.deleteMsg (st1.processing_emoji_msg_id.getD 0)] else [])
    ({ st1 with processing_msg_id := none, processing_emoji_msg_id := none },
     effs)
  else
    (st1, [Effect.invoke items])

/-- Scheduler events against one user's collector: an inbound message
(enqueue, with fresh transport/task identities) or the expiry of the
debounce task with identity `tid`. -/
inductive Ev where
  | enq (item : BatchItem) (pm pe tid : Nat)
  | fire (tid : Nat)

/-- One event step.  A `fire` whose task id is no longer the current
`batch_task` is a timer that was cancelled during its sleep: its body never
runs (`asyncio.CancelledError` is swallowed at line 119-120). -/
def stepEv (lang : String) (st : CollectorState) : Ev → CollectorState × List Effect
  | .enq item pm pe tid => _enqueue_for_batch st lang item pm pe tid
  | .fire tid =>
    if st.batch_task = some tid then _process_batch_after_delay st
    else (st, [])

def runEv (lang : String) : CollectorState → List Ev → CollectorState × List Effect
  | st, [] => (st, [])
  | st, e :: es =>
    let out1 := stepEv lang st e
    let out2 := runEv lang out1.1 es
    (out2.1, out1.2 ++ out2.2)

/-- The Batch Processor invocations among a list of effects. -/
def invocations (effs : List Effect) : List (List BatchItem) :=
  effs.filterMap (fun e => match e with | .invoke s => some s | _ => none)

/-- A burst: `N` enqueues followed by the expiry of the debounce task that
the last enqueue scheduled. -/
def burstEvs (xs : List (BatchItem × Nat × Nat × Nat)) (fireTid : Nat) :
    List Ev :=
  xs.map (fun x => Ev.enq x.1 x.2.1 x.2.2.1 x.2.2.2) ++ [Ev.fire fireTid]

theorem invocations_append (a b : List Effect) :
    invocations (a ++ b) = invocations a ++ invocations b := by
  unfold invocations
  exact List.filterMap_append ..

theorem enqueue_batch_fields (st : CollectorState) (lang : String)
    (item : BatchItem) (pm pe tid : Nat) :
    (_enqueue_for_batch st lang item pm pe tid).1.batch_items
        = st.batch_items ++ [item] ∧
    (_enqueue_for_batch st lang item pm pe tid).1.batch_task = some tid ∧
    invocations (_enqueue_for_batch st lang item pm pe tid).2 = [] := by
  refine ⟨rfl, rfl, ?_⟩
  simp only [_enqueue_for_batch, invocations]
  split_ifs <;> rfl

theorem burst_single_invocation_aux (lang : String)
    (y : BatchItem × Nat × Nat × Nat) :
    ∀ (ys : List (BatchItem × Nat × Nat × Nat)) (st : CollectorState),
      invocations (runEv lang st (burstEvs (ys ++ [y]) y.2.2.2)).2
        = [st.batch_items ++ (ys ++ [y]).map (fun x => x.1)] := by
  intro ys
  induction ys with
  | nil =>
    intro st
    obtain ⟨hitems, htask, hinv⟩ :=
      enqueue_batch_fields st lang y.1 y.2.1 y.2.2.1 y.2.2.2
    simp only [burstEvs, List.nil_append, List.map_cons, List.map_nil,
      List.cons_append, runEv, stepEv]
    rw [invocations_append, hinv, invocations_append, htask, if_pos rfl]
    have hne : (_enqueue_for_batch st lang y.1 y.2.1 y.2.2.1 y.2.2.2).1.batch_items ≠ [] := by
      rw [hitems]; simp
    unfold _process_batch_after_delay
    rw [if_neg hne, hitems]
    rfl
  | cons z zs ih =>
    intro st
    obtain ⟨hitems, htask, hinv⟩ :=
      enqueue_batch_fields st lang z.1 z.2.1 z.2.2.1 z.2.2.2
    have hb : burstEvs ((z :: zs) ++ [y]) y.2.2.2 =
        Ev.enq z.1 z.2.1 z.2.2.1 z.2.2.2 :: burstEvs (zs ++ [y]) y.2.2.2 := by
      simp [burstEvs]
    rw [hb]
    simp only [runEv, stepEv]
    rw [invocations_append, hinv, ih, hitems]
    simp

/-- C2: a burst of `N ≥ 1` enqueues, each arriving before the pending
debounce expires (so every earlier debounce task is cancelled by
replacement and only the last one fires), produces exactly one Batch
Processor invocation carrying all items in arrival order; a debounce
expiry that finds an empty snapshot performs no processing and only
deletes the transient indicator messages; and a cancelled (stale) timer
does nothing at all. -/
theorem debounce_exactly_one_invocation :
    (∀ (lang : String) (st0 : CollectorState)
        (ys : List (BatchItem × Nat × Nat × Nat))
        (y : BatchItem × Nat × Nat × Nat),
        st0.batch_items = [] →
        invocations (runEv lang st0 (burstEvs (ys ++ [y]) y.2.2.2)).2
          = [(ys ++ [y]).map (fun x => x.1)]) ∧
    (∀ st : CollectorState, st.batch_items = [] →
        invocations (_process_batch_after_delay st).2 = [] ∧
        (∀ e ∈ (_process_batch_after_delay st).2,
            ∃ mid, e = Effect.deleteMsg mid) ∧
        (_process_batch_after_delay st).1.processing_msg_id = none ∧
        (_process_batch_after_delay st).1.processing_emoji_msg_id = none) ∧
    (∀ (lang : String) (st : CollectorState) (tid : Nat),
        st.batch_task ≠ some tid → stepEv lang st (.fire tid) = (st, [])) := by
  refine ⟨?_, ?_, ?_⟩
  · intro lang st0 ys y h0
    rw [burst_single_invocation_aux, h0]
    rfl
  · intro st h
    refine ⟨?_, ?_, ?_, ?_⟩
    · simp only [_process_batch_after_delay, if_pos h, invocations]
      split_ifs <;> rfl
    · intro e he
      simp only [_process_batch_after_delay, if_pos h, List.mem_append] at he
      rcases he with he | he
      · split_ifs at he <;> simp at he <;> exact ⟨_, he⟩
      · split_ifs at he <;> simp at he <;> exact ⟨_, he⟩
    · simp only [_process_batch_after_delay, if_pos h]
    · simp only [_process_batch_after_delay, if_pos h]
  · intro lang st tid h
    simp only [stepEv, if_neg h]

/-- A user state as it is right after a flush snapshot was taken while the
processor run is still in flight (indicator handles still recorded). -/
def inflightState : CollectorState :=
  { quiescent with processing_msg_id := some 7,
                   processing_emoji_msg_id := some 8 }

def wBurstA : BatchItem × Nat × Nat × Nat :=
  ({ type := "text", message := { emptyMsg with text := some "a" } }, 1, 2, 3)

def wBurstB : BatchItem × Nat × Nat × Nat :=
  ({ type := "text", message := { emptyMsg with text := some "b" } }, 4, 5, 6)

theorem debounce_exactly_one_invocation_witness :
    (quiescent.batch_items = [] ∧
      invocations (runEv "en" quiescent
          (burstEvs ([wBurstA] ++ [wBurstB]) wBurstB.2.2.2)).2
        = [([wBurstA] ++ [wBurstB]).map (fun x => x.1)]) ∧
    (inflightState.batch_items = [] ∧
      invocations (_process_batch_after_delay inflightState).2 = []) ∧
    (quiescent.batch_task ≠ some 9 ∧
      stepEv "en" quiescent (.fire 9) = (quiescent, [])) :=
  ⟨⟨rfl, debounce_exactly_one_invocation.1 "en" quiescent [wBurstA] wBurstB rfl⟩,
   ⟨rfl, (debounce_exactly_one_invocation.2.1 inflightState rfl).1⟩,
   ⟨by simp [quiescent], debounce_exactly_one_invocation.2.2 "en" quiescent 9
      (by simp [quiescent])⟩⟩

def c9Item : BatchItem :=
  { type := "text", message := { emptyMsg with text := some "x" } }

/-- The collector state reached from quiescence by one enqueue followed by
the debounce expiry taking its snapshot: the buffer and task handle are
cleared, but the indicator handles are still recorded because the processor
run (which clears them at its end) is still in flight. -/
def flushInFlight : CollectorState :=
  (stepEv "en" (stepEv "en" quiescent (.enq c9Item 1 2 3)).1 (.fire 3)).1

def isSendEffect : Effect → Bool
  | .sendMsg _ _ => true
  | _ => false

/-- C9 counterexample: in the reachable state `flushInFlight`,
`pendingItems` is empty and no debounce handle is active — the claim's
trigger condition — yet an enqueue emits no indicator messages at all,
because the code gates on the recorded indicator handles
(`processing_msg_id is None and processing_emoji_msg_id is None`), which
are still set while the flush is in flight. -/
theorem enqueue_indicator_condition_counterexample :
    flushInFlight.batch_items = [] ∧
    flushInFlight.batch_task = none ∧
    (_enqueue_for_batch flushInFlight "en" c9Item 4 5 6).2.filter isSendEffect
      = [] := by
  decide

/-- C9 (amended): `enqueue` deletes the stale last-content/last-prompt
messages and emits exactly one pair of transient processing-indicator
messages, recording their handles, exactly when no indicator handles are
currently recorded (both `processing_msg_id` and `processing_emoji_msg_id`
are `None` — the code's `first_in_batch` test); for every later item of
a burst, and for an item arriving while a flush is still in flight, no
additional indicator messages are emitted and the handles are unchanged.
Outside an in-flight flush the code's test coincides with "pendingItems
empty and no debounce handle active". -/
theorem enqueue_indicator_pair_amended (st : CollectorState) (lang : String)
    (item : BatchItem) (pm pe tid : Nat) :
    (st.processing_msg_id = none → st.processing_emoji_msg_id = none →
      (_enqueue_for_batch st lang item pm pe tid).2 =
        (if truthyN st.last_content_message_id then
          [Effect.deleteMsg (st.last_content_message_id.getD 0)] else []) ++
        (if truthyN st.last_prompt_message_id then
          [Effect.deleteMsg (st.last_prompt_message_id.getD 0)] else []) ++
        [Effect.sendMsg pm (PROCESSING lang),
         Effect.sendMsg pe PROCESSING_EMOJI] ∧
      (_enqueue_for_batch st lang item pm pe tid).1.processing_msg_id
          = some pm ∧
      (_enqueue_for_batch st lang item pm pe tid).1.processing_emoji_msg_id
          = some pe) ∧
    (st.processing_msg_id ≠ none ∨ st.processing_emoji_msg_id ≠ none →
      (_enqueue_for_batch st lang item pm pe tid).2 = [] ∧
      (_enqueue_for_batch st lang item pm pe tid).1.processing_msg_id
          = st.processing_msg_id ∧
      (_enqueue_for_batch st lang item pm pe tid).1.processing_emoji_msg_id
          = st.processing_emoji_msg_id) ∧
    (_enqueue_for_batch st lang item pm pe tid).1.batch_items
        = st.batch_items ++ [item] := by
  refine ⟨?_, ?_, rfl⟩
  · intro h1 h2
    simp only [_enqueue_for_batch, h1, h2, Option.isNone_none, Bool.and_self,
      Bool.true_and, if_true]
    refine ⟨?_, ?_, ?_⟩ <;> (first | rfl | trivial)
  · intro h
    have hfirst :
        (st.processing_msg_id.isNone && st.processing_emoji_msg_id.isNone)
          = false := by
      rcases h with h | h
      · cases hm : st.processing_msg_id with
        | none => exact absurd hm h
        | some v => simp [hm]
      · cases hm : st.processing_emoji_msg_id with
        | none => exact absurd hm h
        | some v => simp [hm]
    simp only [_enqueue_for_batch, hfirst, Bool.false_and, if_false,
      Bool.false_eq_true, List.append_nil, List.nil_append]
    refine ⟨?_, ?_, ?_⟩ <;> (first | rfl | trivial)

theorem enqueue_indicator_pair_amended_witness :
    (quiescent.processing_msg_id = none ∧
      quiescent.processing_emoji_msg_id = none ∧
      (_enqueue_for_batch quiescent "en" c9Item 1 2 3).2 =
        [Effect.sendMsg 1 (PROCESSING "en"),
         Effect.sendMsg 2 PROCESSING_EMOJI] ∧
      (_enqueue_for_batch quiescent "en" c9Item 1 2 3).1.processing_msg_id
          = some 1) ∧
    (inflightState.processing_msg_id ≠ none ∧
      (_enqueue_for_batch inflightState "en" c9Item 4 5 6).2 = []) :=
  ⟨⟨rfl, rfl,
    ((enqueue_indicator_pair_amended quiescent "en" c9Item 1 2 3).1 rfl rfl).1,
    ((enqueue_indicator_pair_amended quiescent "en" c9Item 1 2 3).1 rfl
        rfl).2.1⟩,
   ⟨by decide,
    ((enqueue_indicator_pair_amended inflightState "en" c9Item 4 5 6).2.1
        (Or.inl (by decide))).1⟩⟩

/-! ## The Batch Processor (`_process_batch_core`, app/handlers/notes.py 145-377)

External collaborators are oracles in `CoreEnv`; the run's observable
behavior is a `CoreTrace` (the one generation call's prompt if it happens,
the `log_usage` calls in order, the persisted note if any, and the
exception that aborted the `try` body, if any) plus the user-visible
messages the wrapper sends.  In both the success branch and the `except`
branch the transient indicator messages are deleted and their handles
cleared before these messages are sent.
-/

structure GenUsage where
  input_tokens : Nat
  output_tokens : Nat
  total_tokens : Nat
deriving DecidableEq

/-- One `log_usage(...)` call as issued by the processor. -/
structure UsageEntry where
  kind : String
  input_tokens : Nat
  output_tokens : Nat
  total_tokens : Nat
  voice_seconds : Rat
deriving DecidableEq

/-- The payload a bound `create_note` call would insert
(app/db_notes.py lines 61-69; date and `updated_at` timestamps not
modelled). -/
structure NoteRecord where
  user_id : String
  content : String
  title : Option String
  source : String
deriving DecidableEq

/-- The keyword-only parameters `create_note` accepts
(app/db_notes.py lines 45-52; there is no `**kwargs`). -/
def create_note_params : List String :=
  ["user_id", "content", "title", "d", "source"]

/-- The keyword names the processor passes at the call site
(app/handlers/notes.py line 332). -/
def create_note_call_kwargs : List String :=
  ["user_id", "content", "title", "source", "time"]

/-- Python keyword-argument binding: a call binds only when every passed
keyword is a parameter of the callee; otherwise `TypeError` is raised
before the body runs. -/
def kwargs_accepted (callArgs params : List String) : Bool :=
  callArgs.all (fun k => params.contains k)

/-- The external collaborators of one processor run. -/
structure CoreEnv where
  ios : List ExtIO
  system_prompt : Option String
  uid : Option String
  gen : Except Unit (String × GenUsage)
  saveOk : Bool

deriving instance DecidableEq for Except

/-- The observable trace of one run of the `try` body. -/
structure CoreTrace where
  promptSent : Option String
  usageLog : List UsageEntry
  noteSaved : Option NoteRecord
  outcome : Except String Unit
deriving DecidableEq

/-- The `try` body of `_process_batch_core` (lines 159-352 up to the
success sends): gather per-item extraction, collect parts in order, the
no-content guard, user resolution, the single generation call, the two
usage entries, sanitize + empty-reply guard, title/content split, and the
`create_note(..., time=...)` persistence call. -/
def _process_batch_try (items : List BatchItem) (env : CoreEnv) : CoreTrace :=
  let results := batchResults items env.ios
  let collected := collectResults results
  let parts := collected.1
  let total_voice_seconds := collected.2
  if parts = [] then
    { promptSent := none, usageLog := [], noteSaved := none,
      outcome := .error "No content extracted from batch" }
  else
    let prompt := promptOf parts
    match env.uid with
    | none =>
      { promptSent := none, usageLog := [], noteSaved := none,
        outcome := .error "User not found in app_users for saving note" }
    | some uid =>
      match env.gen with
      | .error _ =>
        { promptSent := some prompt, usageLog := [], noteSaved := none,
          outcome := .error "generate_text raised" }
      | .ok (reply_text, usage) =>
        let usageLog :=
          { kind := "text", input_tokens := usage.input_tokens,
            output_tokens := usage.output_tokens,
            total_tokens := usage.total_tokens,
            voice_seconds := (0 : Rat) } ::
          (if total_voice_seconds > 0 then
            [{ kind := "voice", input_tokens := 0, output_tokens := 0,
               total_tokens := 0, voice_seconds := total_voice_seconds }]
          else [])
        let full_text := _strip_trailing_json_block reply_text
        if full_text = "" ∨ pyStrip full_text = "" then
          { promptSent := some prompt, usageLog := usageLog,
            noteSaved := none, outcome := .error "AI response is empty" }
        else
          let tc := splitTitleContent full_text
          if kwargs_accepted create_note_call_kwargs create_note_params then
            if env.saveOk then
              { promptSent := some prompt, usageLog := usageLog,
                noteSaved := some { user_id := uid, content := tc.2,
                                    title := tc.1, source := "web" },
                outcome := .ok () }
            else
              { promptSent := some prompt, usageLog := usageLog,
                noteSaved := none, outcome := .error "Failed to save note" }
          else
            { promptSent := some prompt, usageLog := usageLog,
              noteSaved := none,
              outcome :=
                .error "TypeError: create_note() got an unexpected keyword argument" }

/-- One outbound chat message: its text and whether the WebApp
call-to-action button is attached. -/
structure OutMsg where
  text : String
  hasButton : Bool
deriving DecidableEq

/-- `_process_batch_core`: the `try` body plus its branches' outbound
messages.  Success branch (lines 347-352): the done message with the
WebApp button, then the follow-up prompt.  `except` branch (lines
354-377): the same done message with the button, then one generic
localized error message. -/
def _process_batch_core (items : List BatchItem) (env : CoreEnv)
    (lang : String) : CoreTrace × List OutMsg :=
  let tr := _process_batch_try items env
  match tr.outcome with
  | .ok _ =>
    (tr, [{ text := PROCESSED_DONE lang, hasButton := true },
          { text := NEXT_PROMPT lang, hasButton := false }])
  | .error _ =>
    (tr, [{ text := PROCESSED_DONE lang, hasButton := true },
          { text := "⚠️ " ++ BATCH_ERROR_TEXT lang, hasButton := false }])

/-- C4: if every item in a flushed batch yields empty extracted text, the
batch fails with the no-content outcome, the Generation Adapter is never
invoked (`promptSent = none`), and no usage entry is logged. -/
theorem no_content_short_circuit (items : List BatchItem) (env : CoreEnv)
    (h : ∀ r ∈ batchResults items env.ios, r.1 = "") :
    (_process_batch_try items env).outcome
        = .error "No content extracted from batch" ∧
    (_process_batch_try items env).promptSent = none ∧
    (_process_batch_try items env).usageLog = [] := by
  have hparts : (collectResults (batchResults items env.ios)).1 = [] := by
    rw [collect_fst]
    rw [List.filter_eq_nil_iff]
    intro a ha
    obtain ⟨r, hr, rfl⟩ := List.mem_map.mp ha
    simp [h r hr]
  simp only [_process_batch_try]
  rw [if_pos hparts]
  exact ⟨rfl, rfl, rfl⟩

def c4Items : List BatchItem :=
  [{ type := "photo", message := { emptyMsg with photo := true } },
   { type := "photo",
     message := { emptyMsg with photo := true, caption := some "   " } }]

def c4Env : CoreEnv :=
  { ios := [.ok "ignored", .error ()], system_prompt := none,
    uid := some "u-1", gen := .ok ("Hello", ⟨1, 2, 3⟩), saveOk := true }

theorem no_content_short_circuit_witness :
    (∀ r ∈ batchResults c4Items c4Env.ios, r.1 = "") ∧
    ((_process_batch_try c4Items c4Env).outcome
        = .error "No content extracted from batch" ∧
     (_process_batch_try c4Items c4Env).promptSent = none ∧
     (_process_batch_try c4Items c4Env).usageLog = []) :=
  ⟨by decide, no_content_short_circuit c4Items c4Env (by decide)⟩

/-- C5: for every batch whose generation call succeeds, exactly one
text-kind usage entry carrying the call's input/output/total token counts
and 0 voice-seconds is logged, followed by exactly one separate voice-kind
entry carrying only the summed per-item durations and 0 tokens if and only
if that sum is positive — two independent entries, never a combined
record; and the logged sum is the plain sum of the per-item
`added_seconds`. -/
theorem usage_entries_split (items : List BatchItem) (env : CoreEnv)
    (reply : String) (usage : GenUsage)
    (hparts : (collectResults (batchResults items env.ios)).1 ≠ [])
    (huid : env.uid.isSome = true)
    (hgen : env.gen = .ok (reply, usage)) :
    (_process_batch_try items env).usageLog =
      { kind := "text", input_tokens := usage.input_tokens,
        output_tokens := usage.output_tokens,
        total_tokens := usage.total_tokens, voice_seconds := (0 : Rat) } ::
      (if (collectResults (batchResults items env.ios)).2 > 0 then
        [{ kind := "voice", input_tokens := 0, output_tokens := 0,
           total_tokens := 0,
           voice_seconds := (collectResults (batchResults items env.ios)).2 }]
      else []) ∧
    (collectResults (batchResults items env.ios)).2
        = ((batchResults items env.ios).map Prod.snd).sum := by
  obtain ⟨uid, hu⟩ := Option.isSome_iff_exists.mp huid
  constructor
  · simp only [_process_batch_try, hu, hgen]
    rw [if_neg hparts]
    split_ifs <;> rfl
  · exact collect_snd _

def c5Items : List BatchItem :=
  [{ type := "voice",
     message := { emptyMsg with voice := some { duration := some 42 } } }]

def c5Env : CoreEnv :=
  { ios := [.ok "buy milk"], system_prompt := none, uid := some "u-1",
    gen := .ok ("Title\nBody", ⟨10, 20, 30⟩), saveOk := true }

theorem usage_entries_split_witness :
    ((collectResults (batchResults c5Items c5Env.ios)).1 ≠ [] ∧
      c5Env.uid.isSome = true ∧
      c5Env.gen = .ok ("Title\nBody", ⟨10, 20, 30⟩)) ∧
    (_process_batch_try c5Items c5Env).usageLog =
      [{ kind := "text", input_tokens := 10, output_tokens := 20,
         total_tokens := 30, voice_seconds := (0 : Rat) },
       { kind := "voice", input_tokens := 0, output_tokens := 0,
         total_tokens := 0, voice_seconds := (42 : Rat) }] :=
  ⟨⟨by decide, rfl, rfl⟩,
   by
    have h := (usage_entries_split c5Items c5Env "Title\nBody" ⟨10, 20, 30⟩
      (by decide) rfl rfl).1
    have h42 : (collectResults (batchResults c5Items c5Env.ios)).2 = 42 := by
      rw [collect_snd]
      show ([("buy milk", (42 : Rat))].map Prod.snd).sum = 42
      simp
    rw [h, h42, if_pos (by norm_num : (42 : Rat) > 0)]⟩

/-- C3 (code bug): whenever the processor reaches the persistence step
(sanitized reply non-empty, user id resolved), the call at
app/handlers/notes.py line 332 passes the keyword `time`, which
`create_note` (app/db_notes.py, keyword-only, no `**kwargs`) does not
accept — Python raises `TypeError` before `create_note` runs, so no note
is ever persisted and the flush always fails, regardless of what
persistence would have reported (`saveOk := true` here). -/
theorem create_note_time_kwarg_rejected_general (items : List BatchItem)
    (env : CoreEnv) (reply : String) (usage : GenUsage)
    (hparts : (collectResults (batchResults items env.ios)).1 ≠ [])
    (huid : env.uid.isSome = true)
    (hgen : env.gen = .ok (reply, usage))
    (hrep : ¬(_strip_trailing_json_block reply = "" ∨
              pyStrip (_strip_trailing_json_block reply) = "")) :
    kwargs_accepted create_note_call_kwargs create_note_params = false ∧
    (_process_batch_try items env).noteSaved = none ∧
    (_process_batch_try items env).outcome =
      .error "TypeError: create_note() got an unexpected keyword argument" := by
  obtain ⟨uid, hu⟩ := Option.isSome_iff_exists.mp huid
  have hkw : ¬(kwargs_accepted create_note_call_kwargs create_note_params
      = true) := by decide
  refine ⟨by decide, ?_, ?_⟩
  · simp only [_process_batch_try, hu, hgen]
    rw [if_neg hparts, if_neg hrep, if_neg hkw]
  · simp only [_process_batch_try, hu, hgen]
    rw [if_neg hparts, if_neg hrep, if_neg hkw]

def c3Items : List BatchItem :=
  [{ type := "text", message := { emptyMsg with text := some "note this" } }]

def c3Env : CoreEnv :=
  { ios := [.ok ""], system_prompt := none, uid := some "u-1",
    gen := .ok ("Hello\nWorld", ⟨10, 20, 30⟩), saveOk := true }

/-- C3 (code bug, concrete run): a batch that reaches the persistence
step with everything in order — non-empty extracted text, resolved user
id, successful generation, non-empty sanitized reply, and a persistence
layer that would report success — still fails: the `time` keyword at
app/handlers/notes.py line 332 is not accepted by `create_note`
(app/db_notes.py), so Python raises `TypeError` and no note is persisted,
contradicting the claim that the flush succeeds iff persistence reports
success. -/
theorem create_note_time_kwarg_type_error :
    ((collectResults (batchResults c3Items c3Env.ios)).1 ≠ [] ∧
      c3Env.uid.isSome = true ∧
      c3Env.gen = .ok ("Hello\nWorld", ⟨10, 20, 30⟩) ∧
      ¬(_strip_trailing_json_block "Hello\nWorld" = "" ∨
        pyStrip (_strip_trailing_json_block "Hello\nWorld") = "")) ∧
    (kwargs_accepted create_note_call_kwargs create_note_params = false ∧
     (_process_batch_try c3Items c3Env).noteSaved = none ∧
     (_process_batch_try c3Items c3Env).outcome =
       .error "TypeError: create_note() got an unexpected keyword argument") :=
  ⟨⟨by decide, rfl, rfl, by decide⟩,
   create_note_time_kwarg_rejected_general c3Items c3Env "Hello\nWorld"
     ⟨10, 20, 30⟩ (by decide) rfl rfl (by decide)⟩

/-- C8 counterexample: a flush that fails does not emit a single localized
generic failure message — the `except` branch first sends the same
"processed safely" call-to-action message (with the WebApp button) that
the success branch sends, and then the generic error message: two
messages, the first of them the success text. -/
theorem failure_messages_counterexample :
    (_process_batch_try c3Items c3Env).outcome ≠ .ok () ∧
    (_process_batch_core c3Items c3Env "en").2 =
      [{ text := PROCESSED_DONE "en", hasButton := true },
       { text := "⚠️ " ++ BATCH_ERROR_TEXT "en", hasButton := false }] ∧
    (_process_batch_core c3Items c3Env "en").2.length ≠ 1 := by
  decide

/-- C8 (amended): every processor run emits exactly one of two fixed
outcome sequences — the call-to-action message with the WebApp button
followed by the follow-up prompt (success), or the same call-to-action
message followed by exactly one generic localized failure message (any
failure).  Both sequences are fixed functions of the user's language
alone, so internal error detail never reaches the user. -/
theorem flush_outcome_messages_amended (items : List BatchItem)
    (env : CoreEnv) (lang : String) :
    (_process_batch_core items env lang).2 =
      [{ text := PROCESSED_DONE lang, hasButton := true },
       { text := NEXT_PROMPT lang, hasButton := false }] ∨
    (_process_batch_core items env lang).2 =
      [{ text := PROCESSED_DONE lang, hasButton := true },
       { text := "⚠️ " ++ BATCH_ERROR_TEXT lang, hasButton := false }] := by
  simp only [_process_batch_core]
  cases h : (_process_batch_try items env).outcome with
  | ok u => left; rfl
  | error e => right; rfl

/-! ## Usage counters (`log_usage`, app/usage.py) -/

structure UserCounters where
  text_tokens_used_total : Int
  text_generations_total : Int
  audio_minutes_total : Int
  audio_generations_total : Int
  text_input_tokens_total : Int
  text_output_tokens_total : Int
deriving DecidableEq

/-- The Supabase counter update performed by `log_usage`
(app/usage.py lines 39-124), as the state transformer on one user's row.
`opt_cols_present` says whether the optional split token columns exist in
the schema (lines 59-76); `updated_at` and the best-effort db.md file log
are not modelled.  `audio_minutes_total` stores SECONDS despite its name
(source comment, line 54). -/
def log_usage (c : UserCounters) (kind : String)
    (input_tokens output_tokens total_tokens : Int) (voice_seconds : Rat)
    (opt_cols_present : Bool) : UserCounters :=
  let in_toks := input_tokens
  let out_toks := output_tokens
  let tot_toks :=
    if total_tokens = 0 ∧ (in_toks ≠ 0 ∨ out_toks ≠ 0) then in_toks + out_toks
    else total_tokens
  if kind = "text" then
    { c with
      text_tokens_used_total :=
        if tot_toks ≠ 0 then c.text_tokens_used_total + tot_toks
        else c.text_tokens_used_total,
      text_generations_total := c.text_generations_total + 1,
      text_input_tokens_total :=
        if opt_cols_present ∧ in_toks ≠ 0 then
          c.text_input_tokens_total + in_toks
        else c.text_input_tokens_total,
      text_output_tokens_total :=
        if opt_cols_present ∧ out_toks ≠ 0 then
          c.text_output_tokens_total + out_toks
        else c.text_output_tokens_total }
  else if kind = "voice" then
    let vs := if voice_seconds = 0 then 0 else voice_seconds
    let sec : Int := max 0 ⌊vs⌋
    let updated :=
      if sec > 0 then
        (c.audio_minutes_total + sec, c.audio_generations_total + 1)
      else (c.audio_minutes_total, c.audio_generations_total)
    { c with audio_minutes_total := updated.1,
             audio_generations_total := updated.2 }
  else c

theorem floor_max_zero (q : Rat) : ⌊max 0 q⌋ = max 0 ⌊q⌋ := by
  rcases le_total q 0 with h | h
  · rw [max_eq_left h, Int.floor_zero,
      max_eq_left (by simpa using Int.floor_le_floor h)]
  · rw [max_eq_right h, max_eq_right (Int.floor_nonneg.mpr h)]

/-- C10: every voice-kind usage increment adds exactly
`⌊max 0 voice_seconds⌋` whole seconds to the stored audio-seconds counter
and bumps the audio-generation counter exactly when that floored value is
strictly positive; all other counters are untouched, a duration strictly
below one second leaves everything unchanged, and no counter is ever
decreased. -/
theorem voice_usage_floor_increment (c : UserCounters) (voice_seconds : Rat)
    (inp out tot : Int) (b : Bool) :
    (log_usage c "voice" inp out tot voice_seconds b).audio_minutes_total
        = c.audio_minutes_total + max 0 ⌊voice_seconds⌋ ∧
    max 0 ⌊voice_seconds⌋ = ⌊max 0 voice_seconds⌋ ∧
    (log_usage c "voice" inp out tot voice_seconds b).audio_generations_total
        = c.audio_generations_total +
          (if 0 < max 0 ⌊voice_seconds⌋ then 1 else 0) ∧
    (voice_seconds < 1 → log_usage c "voice" inp out tot voice_seconds b = c) ∧
    (c.audio_minutes_total
        ≤ (log_usage c "voice" inp out tot voice_seconds b).audio_minutes_total ∧
     c.audio_generations_total
        ≤ (log_usage c "voice" inp out tot voice_seconds b).audio_generations_total ∧
     (log_usage c "voice" inp out tot voice_seconds b).text_tokens_used_total
        = c.text_tokens_used_total ∧
     (log_usage c "voice" inp out tot voice_seconds b).text_generations_total
        = c.text_generations_total ∧
     (log_usage c "voice" inp out tot voice_seconds b).text_input_tokens_total
        = c.text_input_tokens_total ∧
     (log_usage c "voice" inp out tot voice_seconds b).text_output_tokens_total
        = c.text_output_tokens_total) := by
  have hvs : (if voice_seconds = 0 then (0 : Rat) else voice_seconds)
      = voice_seconds := by
    split_ifs with h
    · rw [h]
    · rfl
  have hfl : (0 : Int) ≤ max 0 ⌊voice_seconds⌋ := le_max_left 0 _
  simp only [log_usage, hvs, String.reduceEq, reduceIte]
  by_cases hsec : (0 : Int) < max 0 ⌊voice_seconds⌋
  · simp only [if_pos hsec]
    refine ⟨?_, ?_, ?_, ?_, ?_, ?_, ?_, ?_, ?_, ?_⟩
    · first | rfl | trivial
    · exact (floor_max_zero voice_seconds).symm
    · first | rfl | trivial
    · intro hlt
      exfalso
      have h1 : ⌊voice_seconds⌋ < 1 := by
        rw [Int.floor_lt]
        exact_mod_cast hlt
      omega
    · omega
    · omega
    · first | rfl | trivial
    · first | rfl | trivial
    · first | rfl | trivial
    · first | rfl | trivial
  · simp only [if_neg hsec]
    have hz : max 0 ⌊voice_seconds⌋ = 0 := by omega
    refine ⟨?_, ?_, ?_, ?_, ?_, ?_, ?_, ?_, ?_, ?_⟩
    · rw [hz]; omega
    · exact (floor_max_zero voice_seconds).symm
    · omega
    · intro _
      first | rfl | trivial
    · omega
    · omega
    · first | rfl | trivial
    · first | rfl | trivial
    · first | rfl | trivial
    · first | rfl | trivial

def zeroCounters : UserCounters :=
  { text_tokens_used_total := 0, text_generations_total := 0,
    audio_minutes_total := 0, audio_generations_total := 0,
    text_input_tokens_total := 0, text_output_tokens_total := 0 }

theorem voice_usage_floor_increment_witness :
    ((1 : Rat) / 2 < 1 ∧
      log_usage zeroCounters "voice" 0 0 0 ((1 : Rat) / 2) false
        = zeroCounters) ∧
    (log_usage zeroCounters "voice" 0 0 0 (42 : Rat) false).audio_minutes_total
      = zeroCounters.audio_minutes_total + max 0 ⌊(42 : Rat)⌋ :=
  ⟨⟨by norm_num,
    (voice_usage_floor_increment zeroCounters ((1 : Rat) / 2) 0 0 0
        false).2.2.2.1 (by norm_num)⟩,
   (voice_usage_floor_increment zeroCounters 42 0 0 0 false).1⟩

end N0tebot
